import Mathlib

/-!
Shallow embedding of the `HapticArtFHE` Solidity contract
(src/frontend/web/src/App.tsx, contract section).

Modelling conventions:
* `uint256` values (ids, counters, timestamps, request tokens) are `Nat`;
  Solidity 0.8 reverts on overflow and the spec treats counter overflow as
  practically unreachable, so no modular wraparound is applied to them.
* `euint32` ciphertext handles are modelled by the 32-bit plaintext value
  they encrypt (`Nat`); the external `FHE.add` is homomorphic addition,
  i.e. addition modulo 2^32 on the underlying values.
* Solidity `mapping`s are total functions returning the zero value of the
  range type on unwritten keys, exactly as in the EVM.  The metric mapping
  `encryptedMetric` is modelled with `Option Nat` so that `FHE.isInitialized`
  becomes `Option.isSome` (an uninitialized handle versus a real ciphertext).
* `address` values are `Nat` (`0` = `address(0)`).
* External calls are modelled by explicit parameters: the token returned by
  `FHE.requestDecryption` (`tok`), the hash `keccak256(abi.encodePacked key)`
  (`keccak : String → Nat`), and the outcome of `FHE.checkSignatures`
  (`authOk : Bool`).  The callback payload `bytes cleartexts` is passed in
  already `abi.decode`d (a `List String` for the sample callback, a `Nat`
  for the metric callback).
* A Solidity `require` failure reverts the whole call; a function that can
  revert therefore returns `Except ContractError _`, and an `.error` result
  carries no successor state: the pre-state is unchanged by construction,
  which is exactly the EVM revert semantics.
-/

namespace HapticArtFHE

/-- Pointwise update of a mapping, the EVM store-to-mapping operation. -/
def mapWrite {α : Type} [DecidableEq α] {β : Type} (f : α → β) (k : α) (v : β) : α → β :=
  fun i => if i = k then v else f i

/-- `struct EncryptedSample` of the contract. -/
structure EncryptedSample where
  id : Nat
  encryptedIntensity : Nat
  encryptedFrequency : Nat
  encryptedContactType : Nat
  timestamp : Nat
  submitter : Nat
deriving DecidableEq

/-- `struct Transformation` of the contract. -/
structure Transformation where
  shapeDescriptor : String
  textureDescriptor : String
  revealed : Bool
deriving DecidableEq

/-- Zero value of `EncryptedSample`, what an unwritten mapping slot holds. -/
def defaultSample : EncryptedSample :=
  { id := 0, encryptedIntensity := 0, encryptedFrequency := 0
    encryptedContactType := 0, timestamp := 0, submitter := 0 }

/-- Zero value of `Transformation`, what an unwritten mapping slot holds. -/
def defaultTransformation : Transformation :=
  { shapeDescriptor := "", textureDescriptor := "", revealed := false }

/-- The contract's storage variables. -/
structure ContractState where
  sampleCount : Nat
  encryptedSamples : Nat → EncryptedSample
  transformations : Nat → Transformation
  requestToSampleId : Nat → Nat
  encryptedMetric : String → Option Nat
  metricKeys : List String

/-- Storage at deployment: every counter zero, every mapping empty. -/
def initialState : ContractState :=
  { sampleCount := 0
    encryptedSamples := fun _ => defaultSample
    transformations := fun _ => defaultTransformation
    requestToSampleId := fun _ => 0
    encryptedMetric := fun _ => none
    metricKeys := [] }

/-- The contract's `require` failure messages / error taxonomy of the spec.
`alreadyRevealed` covers both the "Already revealed" require of
`requestTransformation` and the "Already processed" require of
`handleDecryption` (both guard the same `revealed` flag).
`notAuthorized` is the revert a failing access-control modifier would
raise; the `onlySubmitter` hook never raises it. -/
inductive ContractError where
  | invalidSample
  | alreadyRevealed
  | unknownRequest
  | metricNotFound
  | authenticationFailure
  | notAuthorized
deriving DecidableEq

/-- The contract's events. -/
inductive Event where
  | SampleSubmitted (id : Nat) (submitter : Nat) (timestamp : Nat)
  | TransformationRequested (sampleId : Nat) (requestId : Nat)
  | TransformationRevealed (sampleId : Nat)
  | MetricDecrypted (pseudoId : Nat) (value : Nat)
deriving DecidableEq

/-- `modifier onlySubmitter(uint256 sampleId)`: the body is just `_;`,
an access-control placeholder that permits every caller. -/
def onlySubmitter (sender : Nat) (sampleId : Nat) : Bool :=
  true

/-- `submitEncryptedSample`: increments `sampleCount`, stores the sample
under the new id with the caller and `block.timestamp`, stores a fresh
unrevealed `Transformation`, and emits `SampleSubmitted`. -/
def submitEncryptedSample (st : ContractState) (sender : Nat)
    (encryptedIntensity encryptedFrequency encryptedContactType : Nat)
    (ts : Nat) : ContractState × Event :=
  let newId := st.sampleCount + 1
  ({ st with
      sampleCount := newId
      encryptedSamples := mapWrite st.encryptedSamples newId
        { id := newId
          encryptedIntensity := encryptedIntensity
          encryptedFrequency := encryptedFrequency
          encryptedContactType := encryptedContactType
          timestamp := ts
          submitter := sender }
      transformations := mapWrite st.transformations newId defaultTransformation },
   .SampleSubmitted newId sender ts)

/-- `requestTransformation`: guarded by the `onlySubmitter` modifier;
requires `s.id != 0` ("Invalid sample") and the transformation not yet
revealed ("Already revealed"); records `tok → sampleId` in the request
ledger and emits `TransformationRequested`.  `tok` is the request id
returned by the external `FHE.requestDecryption`. -/
def requestTransformation (sender : Nat) (st : ContractState)
    (sampleId : Nat) (tok : Nat) : Except ContractError (ContractState × Event) :=
  if onlySubmitter sender sampleId then
    let s := st.encryptedSamples sampleId
    if s.id = 0 then .error .invalidSample
    else if (st.transformations sampleId).revealed then .error .alreadyRevealed
    else .ok ({ st with
                 requestToSampleId := mapWrite st.requestToSampleId tok sampleId },
              .TransformationRequested sampleId tok)
  else .error .notAuthorized

/-- `handleDecryption`: looks the token up in the ledger, requires a nonzero
target ("Unknown request") and an unrevealed transformation ("Already
processed"), authenticates via `FHE.checkSignatures` (outcome `authOk`),
then writes the positionally decoded descriptors (missing entries default
to `""`), sets `revealed := true` and emits `TransformationRevealed`. -/
def handleDecryption (st : ContractState) (requestId : Nat)
    (cleartexts : List String) (authOk : Bool) :
    Except ContractError (ContractState × Event) :=
  let sampleId := st.requestToSampleId requestId
  if sampleId = 0 then .error .unknownRequest
  else if (st.transformations sampleId).revealed then .error .alreadyRevealed
  else if authOk then
    .ok ({ st with
            transformations := mapWrite st.transformations sampleId
              { shapeDescriptor := cleartexts.getD 0 ""
                textureDescriptor := cleartexts.getD 1 ""
                revealed := true } },
         .TransformationRevealed sampleId)
  else .error .authenticationFailure

/-- `getTransformation`: pure read, returns the stored triple verbatim. -/
def getTransformation (st : ContractState) (sampleId : Nat) :
    String × String × Bool :=
  let t := st.transformations sampleId
  (t.shapeDescriptor, t.textureDescriptor, t.revealed)

/-- `FHE.add` on `euint32`: homomorphic addition, addition mod 2^32 on the
underlying plaintext values. -/
def fheAdd (a b : Nat) : Nat :=
  (a + b) % 2 ^ 32

/-- `storeEncryptedMetric`: first value for a key is stored as-is and the
key registered; later values are added homomorphically into the sum. -/
def storeEncryptedMetric (st : ContractState) (key : String) (value : Nat) :
    ContractState :=
  match st.encryptedMetric key with
  | none =>
      { st with
          encryptedMetric := mapWrite st.encryptedMetric key (some value)
          metricKeys := st.metricKeys ++ [key] }
  | some m =>
      { st with
          encryptedMetric := mapWrite st.encryptedMetric key (some (fheAdd m value)) }

/-- `requestMetricDecryption`: requires the metric to be initialized
("Metric not found"), then records `tok → keccak256(key)` — the metric
pseudo-id — in the same request ledger used for samples.  Emits nothing. -/
def requestMetricDecryption (keccak : String → Nat) (st : ContractState)
    (key : String) (tok : Nat) : Except ContractError ContractState :=
  match st.encryptedMetric key with
  | none => .error .metricNotFound
  | some _ =>
      .ok { st with
              requestToSampleId := mapWrite st.requestToSampleId tok (keccak key) }

/-- `handleMetricDecryption`: looks the token up in the ledger, requires a
nonzero pseudo-id ("Unknown request"), authenticates, decodes a single
`uint32` and emits `MetricDecrypted`.  No storage is written. -/
def handleMetricDecryption (st : ContractState) (requestId : Nat)
    (cleartext : Nat) (authOk : Bool) :
    Except ContractError (ContractState × Event) :=
  let pseudoId := st.requestToSampleId requestId
  if pseudoId = 0 then .error .unknownRequest
  else if authOk then .ok (st, .MetricDecrypted pseudoId cleartext)
  else .error .authenticationFailure

/-- `getSampleSubmitter`: pure read of the stored submitter. -/
def getSampleSubmitter (st : ContractState) (sampleId : Nat) : Nat :=
  (st.encryptedSamples sampleId).submitter

/-- `resetTransformationReveal`: administrative escape hatch, clears the
`revealed` flag of a transformation. -/
def resetTransformationReveal (st : ContractState) (sampleId : Nat) :
    ContractState :=
  { st with
      transformations := mapWrite st.transformations sampleId
        { st.transformations sampleId with revealed := false } }

/-- `listMetricKeys`: pure read of the key registry. -/
def listMetricKeys (st : ContractState) : List String :=
  st.metricKeys

/-- `getEncryptedSampleInfo`: pure read returning
`(s.id, s.timestamp, s.submitter, t.revealed)`. -/
def getEncryptedSampleInfo (st : ContractState) (sampleId : Nat) :
    Nat × Nat × Nat × Bool :=
  let s := st.encryptedSamples sampleId
  let t := st.transformations sampleId
  (s.id, s.timestamp, s.submitter, t.revealed)

/-! ### Reachable states

One step per public state-changing entry point of the contract; `.ok`
results of the fallible entry points.  The pure views and the
`receive`/`fallback` stubs change no storage. -/

/-- Arguments of one `submitEncryptedSample` call. -/
structure Submission where
  sender : Nat
  encryptedIntensity : Nat
  encryptedFrequency : Nat
  encryptedContactType : Nat
  timestamp : Nat

/-- States reachable from deployment through the contract's entry points. -/
inductive Reachable : ContractState → Prop where
  | init : Reachable initialState
  | submit {st : ContractState} {sender i f c ts : Nat} :
      Reachable st → Reachable (submitEncryptedSample st sender i f c ts).1
  | request {sender : Nat} {st : ContractState} {sampleId tok : Nat}
      {st' : ContractState} {ev : Event} :
      Reachable st → requestTransformation sender st sampleId tok = .ok (st', ev) →
      Reachable st'
  | callback {st : ContractState} {reqId : Nat} {cle : List String} {authOk : Bool}
      {st' : ContractState} {ev : Event} :
      Reachable st → handleDecryption st reqId cle authOk = .ok (st', ev) →
      Reachable st'
  | store {st : ContractState} {key : String} {v : Nat} :
      Reachable st → Reachable (storeEncryptedMetric st key v)
  | requestMetric {keccak : String → Nat} {st : ContractState} {key : String}
      {tok : Nat} {st' : ContractState} :
      Reachable st → requestMetricDecryption keccak st key tok = .ok st' →
      Reachable st'
  | metricCallback {st : ContractState} {reqId v : Nat} {authOk : Bool}
      {st' : ContractState} {ev : Event} :
      Reachable st → handleMetricDecryption st reqId v authOk = .ok (st', ev) →
      Reachable st'
  | reset {st : ContractState} {sampleId : Nat} :
      Reachable st → Reachable (resetTransformationReveal st sampleId)

/-! ### Concrete fixture states used by witnesses and counterexamples -/

/-- A state with one revealed sample 1 and a pending request token 7 for it. -/
def revealedFixture : ContractState :=
  { initialState with
      sampleCount := 1
      transformations := mapWrite initialState.transformations 1
        { shapeDescriptor := "sphere", textureDescriptor := "soft", revealed := true }
      requestToSampleId := mapWrite initialState.requestToSampleId 7 1 }

/-- A state whose request ledger maps token 9 to target 77. -/
def ledgerFixture : ContractState :=
  { initialState with
      requestToSampleId := mapWrite initialState.requestToSampleId 9 77 }

/-- A stand-in for `keccak256(abi.encodePacked key)` interpreted as `uint256`;
any hash with a nonzero value on the key in question exhibits the behaviour
proved about it (the real keccak has no known zero preimage). -/
def keccakFixture : String → Nat :=
  fun _ => 42

/-- One metric accumulated under key "heat". -/
def metricFixture : ContractState :=
  storeEncryptedMetric initialState "heat" 5

/-- `metricFixture` after a metric decryption request with token 100:
the ledger maps 100 to the metric pseudo-id `keccakFixture "heat" = 42`. -/
def metricRequested : Except ContractError ContractState :=
  requestMetricDecryption keccakFixture metricFixture "heat" 100

/-- A state holding exactly one (unrevealed) submitted sample. -/
def oneSampleFixture : ContractState :=
  (submitEncryptedSample initialState 99 11 22 33 1000).1

/-- The sample id carried by a `SampleSubmitted` event. -/
def sampleIdOf : Event → Nat
  | .SampleSubmitted id _ _ => id
  | _ => 0

/-- The ids announced by the `SampleSubmitted` events of a sequence of
`submitEncryptedSample` calls, in call order. -/
def assignedIds : ContractState → List Submission → List Nat
  | _, [] => []
  | st, sub :: rest =>
      let r := submitEncryptedSample st sub.sender sub.encryptedIntensity
        sub.encryptedFrequency sub.encryptedContactType sub.timestamp
      sampleIdOf r.2 :: assignedIds r.1 rest

/-- The effect of one `storeEncryptedMetric` call on the ciphertext stored
for the targeted key: first value kept as-is, later values added
homomorphically. -/
def metricStep (o : Option Nat) (v : Nat) : Option Nat :=
  match o with
  | none => some v
  | some m => some (fheAdd m v)

/-- `storeEncryptedMetric` iterated over a list of values for one key. -/
def accumulateMetric (st : ContractState) (key : String) (l : List Nat) :
    ContractState :=
  l.foldl (fun s v => storeEncryptedMetric s key v) st

/-! ### Inversion lemmas for the fallible entry points -/

theorem requestTransformation_ok_inv {sender : Nat} {st : ContractState}
    {sampleId tok : Nat} {st' : ContractState} {ev : Event}
    (h : requestTransformation sender st sampleId tok = .ok (st', ev)) :
    (st.encryptedSamples sampleId).id ≠ 0 ∧
    (st.transformations sampleId).revealed = false ∧
    st' = { st with requestToSampleId := mapWrite st.requestToSampleId tok sampleId } ∧
    ev = .TransformationRequested sampleId tok := by
  unfold requestTransformation onlySubmitter at h
  simp only [if_true] at h
  split at h
  · exact absurd h (by simp)
  · split at h
    · exact absurd h (by simp)
    · rename_i h0 h1
      simp only [Except.ok.injEq, Prod.mk.injEq] at h
      exact ⟨h0, Bool.not_eq_true _ ▸ h1, h.1.symm, h.2.symm⟩

theorem handleDecryption_ok_inv {st : ContractState} {reqId : Nat}
    {cle : List String} {authOk : Bool} {st' : ContractState} {ev : Event}
    (h : handleDecryption st reqId cle authOk = .ok (st', ev)) :
    st.requestToSampleId reqId ≠ 0 ∧
    (st.transformations (st.requestToSampleId reqId)).revealed = false ∧
    authOk = true ∧
    st' = { st with
             transformations := mapWrite st.transformations (st.requestToSampleId reqId)
               { shapeDescriptor := cle.getD 0 ""
                 textureDescriptor := cle.getD 1 ""
                 revealed := true } } ∧
    ev = .TransformationRevealed (st.requestToSampleId reqId) := by
  simp only [handleDecryption] at h
  split at h
  · exact absurd h (by simp)
  · split at h
    · exact absurd h (by simp)
    · split at h
      · rename_i h0 h1 h2
        simp only [Except.ok.injEq, Prod.mk.injEq] at h
        exact ⟨h0, Bool.not_eq_true _ ▸ h1, h2, h.1.symm, h.2.symm⟩
      · exact absurd h (by simp)

theorem requestMetricDecryption_ok_inv {keccak : String → Nat}
    {st : ContractState} {key : String} {tok : Nat} {st' : ContractState}
    (h : requestMetricDecryption keccak st key tok = .ok st') :
    (st.encryptedMetric key).isSome = true ∧
    st' = { st with
             requestToSampleId := mapWrite st.requestToSampleId tok (keccak key) } := by
  unfold requestMetricDecryption at h
  split at h
  · exact absurd h (by simp)
  · rename_i m hm
    simp only [Except.ok.injEq] at h
    exact ⟨by simp [hm], h.symm⟩

theorem handleMetricDecryption_ok_inv {st : ContractState} {reqId v : Nat}
    {authOk : Bool} {st' : ContractState} {ev : Event}
    (h : handleMetricDecryption st reqId v authOk = .ok (st', ev)) :
    st.requestToSampleId reqId ≠ 0 ∧ authOk = true ∧ st' = st ∧
    ev = .MetricDecrypted (st.requestToSampleId reqId) v := by
  simp only [handleMetricDecryption] at h
  split at h
  · exact absurd h (by simp)
  · split at h
    · rename_i h0 h1
      simp only [Except.ok.injEq, Prod.mk.injEq] at h
      exact ⟨h0, h1, h.1.symm, h.2.symm⟩
    · exact absurd h (by simp)

/-! ### C1: ids over a sequence of submissions -/

theorem assignedIds_eq_range' (subs : List Submission) :
    ∀ st : ContractState,
      assignedIds st subs = List.range' (st.sampleCount + 1) subs.length := by
  induction subs with
  | nil => intro st; rfl
  | cons sub rest ih =>
      intro st
      simp only [assignedIds, List.length_cons, List.range'_succ, List.cons.injEq]
      exact ⟨rfl, ih _⟩

/-- C1: for every sequence of calls to `submitEncryptedSample` starting at
deployment, the assigned ids are exactly `1, 2, …, n` — strictly increasing
from 1, gap-free, and never reused.  (The general statement from any start
state shows ids continue `sampleCount + 1, sampleCount + 2, …`.) -/
theorem claim1_sample_ids_sequential :
    (∀ (st : ContractState) (subs : List Submission),
        assignedIds st subs = List.range' (st.sampleCount + 1) subs.length) ∧
    (∀ subs : List Submission,
        assignedIds initialState subs = List.range' 1 subs.length) := by
  refine ⟨fun st subs => assignedIds_eq_range' subs st, fun subs => ?_⟩
  exact assignedIds_eq_range' subs initialState

/-! ### C2: unknown token -/

/-- C2: `handleDecryption` with a token that is not a recorded entry in the
request ledger (the mapping holds its zero default, exactly the contract's
"not recorded" condition) fails with the `UnknownRequest` error.  An
`.error` result carries no successor state: the call reverts, so samples,
transformations, metrics and the ledger are all left unchanged. -/
theorem claim2_unknown_token_rejected (st : ContractState) (t : Nat)
    (cle : List String) (authOk : Bool)
    (h : st.requestToSampleId t = 0) :
    handleDecryption st t cle authOk = .error .unknownRequest := by
  simp only [handleDecryption, h, if_true]

theorem claim2_witness :
    handleDecryption initialState 5 ["sphere", "soft"] true =
      .error .unknownRequest :=
  claim2_unknown_token_rejected initialState 5 ["sphere", "soft"] true rfl

/-! ### C3: already-revealed target -/

/-- C3: `handleDecryption` for a token whose ledger target is a sample with
`revealed = true` fails with the `AlreadyRevealed` error (require message
"Already processed" in the source).  The call reverts, so the stored
`shapeDescriptor` and `textureDescriptor` — and all other state — are not
overwritten. -/
theorem claim3_already_revealed_not_overwritten (st : ContractState) (t : Nat)
    (cle : List String) (authOk : Bool)
    (h0 : st.requestToSampleId t ≠ 0)
    (h1 : (st.transformations (st.requestToSampleId t)).revealed = true) :
    handleDecryption st t cle authOk = .error .alreadyRevealed := by
  simp [handleDecryption, h0, h1]

theorem claim3_witness :
    handleDecryption revealedFixture 7 ["cube", "rough"] true =
      .error .alreadyRevealed :=
  claim3_already_revealed_not_overwritten revealedFixture 7 ["cube", "rough"] true
    (by decide) (by decide)

/-! ### C4: authentication is fail-closed -/

/-- C4: in both `handleDecryption` and `handleMetricDecryption`, if the
`FHE.checkSignatures` authentication fails (`authOk = false`), the callback
never returns `.ok`: it aborts by reverting, with no state mutation at all,
even though the already-decoded cleartext payload (`cle` / `v`) would have
been accepted had authentication succeeded. -/
theorem claim4_auth_failure_fail_closed (st : ContractState) (t : Nat)
    (cle : List String) (v : Nat) :
    (handleDecryption st t cle false).isOk = false ∧
    (handleMetricDecryption st t v false).isOk = false := by
  constructor
  · simp only [handleDecryption]
    split
    · rfl
    · split
      · rfl
      · rfl
  · simp only [handleMetricDecryption]
    split
    · rfl
    · rfl

/-! ### Mapping and frame lemmas -/

theorem mapWrite_eq {α : Type} [DecidableEq α] {β : Type}
    (f : α → β) (k : α) (v : β) : mapWrite f k v k = v := by
  simp [mapWrite]

theorem mapWrite_ne {α : Type} [DecidableEq α] {β : Type}
    (f : α → β) (k : α) (v : β) (i : α) (h : i ≠ k) : mapWrite f k v i = f i := by
  simp [mapWrite, h]

theorem storeEncryptedMetric_frame (st : ContractState) (key : String) (v : Nat) :
    (storeEncryptedMetric st key v).sampleCount = st.sampleCount ∧
    (storeEncryptedMetric st key v).encryptedSamples = st.encryptedSamples ∧
    (storeEncryptedMetric st key v).transformations = st.transformations ∧
    (storeEncryptedMetric st key v).requestToSampleId = st.requestToSampleId := by
  unfold storeEncryptedMetric
  split
  · exact ⟨rfl, rfl, rfl, rfl⟩
  · exact ⟨rfl, rfl, rfl, rfl⟩

/-! ### Reachability invariants -/

/-- In every reachable state the sample registry holds exactly the ids
`1 … sampleCount`: slots outside that range are untouched (zero-valued),
and an issued slot records its own id. -/
theorem reachable_sample_bounds {st : ContractState} (h : Reachable st) :
    (∀ i, i = 0 ∨ st.sampleCount < i → st.encryptedSamples i = defaultSample) ∧
    (∀ i, 1 ≤ i → i ≤ st.sampleCount → (st.encryptedSamples i).id = i) := by
  induction h with
  | init =>
      exact ⟨fun i _ => rfl, fun i h1 h2 => absurd (h1.trans h2) (by decide)⟩
  | @submit st sender i f c ts _ ih =>
      simp only [submitEncryptedSample]
      constructor
      · intro j hj
        have hne : j ≠ st.sampleCount + 1 := by omega
        rw [mapWrite_ne _ _ _ _ hne]
        exact ih.1 j (by omega)
      · intro j h1 h2
        by_cases he : j = st.sampleCount + 1
        · subst he
          rw [mapWrite_eq]
        · rw [mapWrite_ne _ _ _ _ he]
          exact ih.2 j h1 (by omega)
  | @request sender st sampleId tok st' ev _ hok ih =>
      obtain ⟨-, -, hst', -⟩ := requestTransformation_ok_inv hok
      subst hst'
      exact ih
  | @callback st reqId cle authOk st' ev _ hok ih =>
      obtain ⟨-, -, -, hst', -⟩ := handleDecryption_ok_inv hok
      subst hst'
      exact ih
  | @store st key v _ ih =>
      obtain ⟨f1, f2, -, -⟩ := storeEncryptedMetric_frame st key v
      rw [f1, f2]
      exact ih
  | @requestMetric keccak st key tok st' _ hok ih =>
      obtain ⟨-, hst'⟩ := requestMetricDecryption_ok_inv hok
      subst hst'
      exact ih
  | @metricCallback st reqId v authOk st' ev _ hok ih =>
      obtain ⟨-, -, hst', -⟩ := handleMetricDecryption_ok_inv hok
      subst hst'
      exact ih
  | @reset st sampleId _ ih =>
      exact ih

/-- In every reachable state, slot 0 of the transformation store still holds
the zero value: id 0 is never written. -/
theorem reachable_transformations_zero {st : ContractState} (h : Reachable st) :
    st.transformations 0 = defaultTransformation := by
  induction h with
  | init => rfl
  | @submit st sender i f c ts _ ih =>
      simp only [submitEncryptedSample]
      rw [mapWrite_ne _ _ _ _ (by omega)]
      exact ih
  | @request sender st sampleId tok st' ev _ hok ih =>
      obtain ⟨-, -, hst', -⟩ := requestTransformation_ok_inv hok
      subst hst'
      exact ih
  | @callback st reqId cle authOk st' ev _ hok ih =>
      obtain ⟨h0, -, -, hst', -⟩ := handleDecryption_ok_inv hok
      subst hst'
      show mapWrite st.transformations (st.requestToSampleId reqId) _ 0 = _
      rw [mapWrite_ne _ _ _ _ (fun hh => h0 hh.symm)]
      exact ih
  | @store st key v _ ih =>
      obtain ⟨-, -, f3, -⟩ := storeEncryptedMetric_frame st key v
      rw [f3]
      exact ih
  | @requestMetric keccak st key tok st' _ hok ih =>
      obtain ⟨-, hst'⟩ := requestMetricDecryption_ok_inv hok
      subst hst'
      exact ih
  | @metricCallback st reqId v authOk st' ev _ hok ih =>
      obtain ⟨-, -, hst', -⟩ := handleMetricDecryption_ok_inv hok
      subst hst'
      exact ih
  | @reset st sampleId _ ih =>
      show mapWrite st.transformations sampleId _ 0 = _
      by_cases hz : sampleId = 0
      · subst hz
        rw [mapWrite_eq, ih]
        rfl
      · rw [mapWrite_ne _ _ _ _ (fun hh => hz hh.symm)]
        exact ih

/-! ### C5: requestTransformation specification -/

/-- C5: in every reachable state (where the issued sample ids are exactly
`1 … sampleCount`), `requestTransformation` fails with `InvalidTarget`
("Invalid sample") when the id is 0 or was never issued, fails with
`AlreadyRevealed` when the sample exists but its transformation is already
revealed, and otherwise records `token → sampleId` in the request ledger
and emits `TransformationRequested (sampleId, token)`. -/
theorem claim5_requestTransformation_spec (sender : Nat) (st : ContractState)
    (sampleId tok : Nat) (h : Reachable st) :
    ((sampleId = 0 ∨ st.sampleCount < sampleId) →
        requestTransformation sender st sampleId tok = .error .invalidSample) ∧
    (1 ≤ sampleId → sampleId ≤ st.sampleCount →
        (st.transformations sampleId).revealed = true →
        requestTransformation sender st sampleId tok = .error .alreadyRevealed) ∧
    (1 ≤ sampleId → sampleId ≤ st.sampleCount →
        (st.transformations sampleId).revealed = false →
        requestTransformation sender st sampleId tok =
          .ok ({ st with requestToSampleId := mapWrite st.requestToSampleId tok sampleId },
               .TransformationRequested sampleId tok)) := by
  obtain ⟨hdef, hid⟩ := reachable_sample_bounds h
  refine ⟨?_, ?_, ?_⟩
  · intro hcase
    have hd : st.encryptedSamples sampleId = defaultSample := hdef sampleId hcase
    simp [requestTransformation, onlySubmitter, hd, defaultSample]
  · intro h1 h2 hrev
    have hne : ¬(st.encryptedSamples sampleId).id = 0 := by
      rw [hid sampleId h1 h2]; omega
    simp [requestTransformation, onlySubmitter, hne, hrev]
  · intro h1 h2 hrev
    have hne : ¬(st.encryptedSamples sampleId).id = 0 := by
      rw [hid sampleId h1 h2]; omega
    simp [requestTransformation, onlySubmitter, hne, hrev]

theorem claim5_witness :
    requestTransformation 4 oneSampleFixture 0 55 = .error .invalidSample ∧
    requestTransformation 4 oneSampleFixture 1 55 =
      .ok ({ oneSampleFixture with
              requestToSampleId := mapWrite oneSampleFixture.requestToSampleId 55 1 },
           .TransformationRequested 1 55) :=
  ⟨(claim5_requestTransformation_spec 4 oneSampleFixture 0 55
      (Reachable.submit Reachable.init)).1 (Or.inl rfl),
   (claim5_requestTransformation_spec 4 oneSampleFixture 1 55
      (Reachable.submit Reachable.init)).2.2 (by decide) (by decide) rfl⟩

/-! ### C6: the request ledger conflates the two id-spaces -/

/-- C6 (counterexample): the ledger does NOT distinguish the two id-spaces.
From deployment: accumulate metric "heat", request its decryption with
token 100 (the ledger then maps 100 to the metric pseudo-id 42), and feed
that metric token to the SAMPLE callback `handleDecryption` with a valid
proof: the call succeeds and emits `TransformationRevealed 42` — while
`sampleCount = 0`, i.e. no sample was ever submitted.  A token issued for
a metric is processed as if it were a sample token. -/
theorem claim6_counterexample :
    (metricRequested.bind fun s =>
        (handleDecryption s 100 ["sphere", "soft"] true).map Prod.snd) =
      .ok (.TransformationRevealed 42) ∧
    metricFixture.sampleCount = 0 :=
  ⟨rfl, rfl⟩

/-- C6 (amended): each recorded token resolves to a single integer target,
but the shared ledger carries no kind discriminant: whenever a metric's
pseudo-id is nonzero and its slot in the transformation store is
unrevealed, the token issued by `requestMetricDecryption` is accepted by
the sample callback `handleDecryption`, so a token issued for one kind CAN
be processed as the other. -/
theorem claim6_amended_ledger_conflation (keccak : String → Nat)
    (st : ContractState) (key : String) (tok : Nat) (cle : List String)
    (hm : (st.encryptedMetric key).isSome = true)
    (hk : keccak key ≠ 0)
    (hr : (st.transformations (keccak key)).revealed = false) :
    requestMetricDecryption keccak st key tok =
      .ok { st with requestToSampleId := mapWrite st.requestToSampleId tok (keccak key) } ∧
    (handleDecryption
        { st with requestToSampleId := mapWrite st.requestToSampleId tok (keccak key) }
        tok cle true).isOk = true := by
  obtain ⟨m, hmk⟩ := Option.isSome_iff_exists.mp hm
  constructor
  · simp [requestMetricDecryption, hmk]
  · simp [handleDecryption, mapWrite_eq, hk, hr, Except.isOk, Except.toBool]

theorem claim6_amended_witness :
    requestMetricDecryption keccakFixture metricFixture "heat" 100 =
      .ok { metricFixture with
             requestToSampleId :=
               mapWrite metricFixture.requestToSampleId 100 (keccakFixture "heat") } ∧
    (handleDecryption
        { metricFixture with
           requestToSampleId :=
             mapWrite metricFixture.requestToSampleId 100 (keccakFixture "heat") }
        100 ["sphere"] true).isOk = true :=
  claim6_amended_ledger_conflation keccakFixture metricFixture "heat" 100 ["sphere"]
    rfl (by decide) rfl

/-! ### C7: reads at id 0 -/

/-- C7 (counterexample): `getTransformation 0` is NOT rejected as
not-found.  In the state holding exactly one (unrevealed) sample, the read
at the reserved id 0 returns `("", "", false)` — byte-for-byte the same
`Transformation` triple as the read at the genuinely issued id 1 — so id 0
is answered exactly as if such a sample existed. -/
theorem claim7_counterexample :
    getTransformation oneSampleFixture 0 = ("", "", false) ∧
    getTransformation oneSampleFixture 1 = ("", "", false) :=
  ⟨rfl, rfl⟩

/-- C7 (amended): neither read reverts on id 0.  `getEncryptedSampleInfo 0`
returns `id = 0` — the reserved "no such id" sentinel, by which a caller
can detect non-existence — while `getTransformation 0` returns the zero
`Transformation` `("", "", false)` with no explicit rejection,
indistinguishable from a submitted-but-unrevealed sample. -/
theorem claim7_amended_zero_id_reads (st : ContractState) (h : Reachable st) :
    getTransformation st 0 = ("", "", false) ∧
    getEncryptedSampleInfo st 0 = (0, 0, 0, false) := by
  have ht := reachable_transformations_zero h
  have hs := (reachable_sample_bounds h).1 0 (Or.inl rfl)
  constructor
  · simp [getTransformation, ht, defaultTransformation]
  · simp [getEncryptedSampleInfo, ht, hs, defaultSample, defaultTransformation]

theorem claim7_amended_witness :
    getTransformation oneSampleFixture 0 = ("", "", false) ∧
    getEncryptedSampleInfo oneSampleFixture 0 = (0, 0, 0, false) :=
  claim7_amended_zero_id_reads oneSampleFixture (Reachable.submit Reachable.init)

/-! ### C8: metric accumulation is order-independent -/

theorem storeEncryptedMetric_at_key (st : ContractState) (key : String) (v : Nat) :
    (storeEncryptedMetric st key v).encryptedMetric key =
      metricStep (st.encryptedMetric key) v := by
  rcases hm : st.encryptedMetric key with _ | m <;>
    simp [storeEncryptedMetric, metricStep, hm, mapWrite_eq]

theorem accumulateMetric_at_key (key : String) (l : List Nat) :
    ∀ st : ContractState,
      (accumulateMetric st key l).encryptedMetric key =
        l.foldl metricStep (st.encryptedMetric key) := by
  induction l with
  | nil => intro st; rfl
  | cons v t ih =>
      intro st
      show (accumulateMetric (storeEncryptedMetric st key v) key t).encryptedMetric key = _
      rw [ih, List.foldl_cons, storeEncryptedMetric_at_key]

theorem metricStep_swap (o : Option Nat) (a b : Nat) :
    metricStep (metricStep o a) b = metricStep (metricStep o b) a := by
  cases o with
  | none =>
      show some ((a + b) % 2 ^ 32) = some ((b + a) % 2 ^ 32)
      rw [Nat.add_comm]
  | some m =>
      show some (((m + a) % 2 ^ 32 + b) % 2 ^ 32) =
        some (((m + b) % 2 ^ 32 + a) % 2 ^ 32)
      rw [Nat.mod_add_mod, Nat.mod_add_mod]
      have hc : m + a + b = m + b + a := by omega
      rw [hc]

theorem foldl_metricStep_perm {l l' : List Nat} (h : l.Perm l') :
    ∀ o : Option Nat, l.foldl metricStep o = l'.foldl metricStep o := by
  induction h with
  | nil => intro o; rfl
  | cons x _ ih => intro o; simp only [List.foldl_cons]; exact ih _
  | swap x y t => intro o; simp only [List.foldl_cons]; rw [metricStep_swap]
  | trans _ _ ih1 ih2 => intro o; rw [ih1, ih2]

/-- C8: accumulating any finite collection of encrypted values into a metric
key via `storeEncryptedMetric` is order-independent — any permutation of
the values leaves the same final running-sum ciphertext — and for `[a, b, c]`
(homomorphic addition being exact addition as long as the sum fits in 32
bits) the post-decryption value is `a + b + c` in every order. -/
theorem claim8_metric_accumulation_order_independent (st : ContractState)
    (key : String) (l l' : List Nat) (h : l.Perm l') :
    (accumulateMetric st key l).encryptedMetric key =
      (accumulateMetric st key l').encryptedMetric key ∧
    (∀ a b c : Nat, a + b + c < 2 ^ 32 →
        (accumulateMetric initialState key [a, b, c]).encryptedMetric key =
          some (a + b + c)) := by
  constructor
  · rw [accumulateMetric_at_key, accumulateMetric_at_key, foldl_metricStep_perm h]
  · intro a b c hlt
    rw [accumulateMetric_at_key]
    show some (((a + b) % 2 ^ 32 + c) % 2 ^ 32) = some (a + b + c)
    rw [Nat.mod_add_mod, Nat.mod_eq_of_lt hlt]

theorem claim8_witness :
    (accumulateMetric initialState "heat" [5, 7, 3]).encryptedMetric "heat" =
      (accumulateMetric initialState "heat" [3, 5, 7]).encryptedMetric "heat" ∧
    (accumulateMetric initialState "heat" [5, 7, 3]).encryptedMetric "heat" =
      some 15 := by
  have h := claim8_metric_accumulation_order_independent initialState "heat"
    [5, 7, 3] [3, 5, 7] (by decide)
  exact ⟨h.1, h.2 5 7 3 (by decide)⟩

/-! ### C9: no authorization on mutating operations -/

/-- C9: no authorization is enforced.  The `onlySubmitter` hook permits
every caller; `requestTransformation` produces literally the same result
for any two caller identities; and for `submitEncryptedSample` the caller
identity influences only the `submitter` field of the stored sample (all
other state components and the announced id coincide, and the stored
samples coincide once the `submitter` field is erased). -/
theorem claim9_no_authorization (s1 s2 : Nat) :
    (∀ sampleId : Nat, onlySubmitter s1 sampleId = true) ∧
    (∀ (st : ContractState) (sampleId tok : Nat),
        requestTransformation s1 st sampleId tok =
          requestTransformation s2 st sampleId tok) ∧
    (∀ (st : ContractState) (i f c ts : Nat),
        ((submitEncryptedSample st s1 i f c ts).1.sampleCount =
            (submitEncryptedSample st s2 i f c ts).1.sampleCount) ∧
        ((submitEncryptedSample st s1 i f c ts).1.transformations =
            (submitEncryptedSample st s2 i f c ts).1.transformations) ∧
        ((submitEncryptedSample st s1 i f c ts).1.requestToSampleId =
            (submitEncryptedSample st s2 i f c ts).1.requestToSampleId) ∧
        ((submitEncryptedSample st s1 i f c ts).1.encryptedMetric =
            (submitEncryptedSample st s2 i f c ts).1.encryptedMetric) ∧
        ((submitEncryptedSample st s1 i f c ts).1.metricKeys =
            (submitEncryptedSample st s2 i f c ts).1.metricKeys) ∧
        (∀ j, { (submitEncryptedSample st s1 i f c ts).1.encryptedSamples j with
                  submitter := 0 } =
              { (submitEncryptedSample st s2 i f c ts).1.encryptedSamples j with
                  submitter := 0 }) ∧
        sampleIdOf (submitEncryptedSample st s1 i f c ts).2 =
          sampleIdOf (submitEncryptedSample st s2 i f c ts).2) := by
  refine ⟨fun _ => rfl, fun _ _ _ => rfl, fun st i f c ts => ?_⟩
  refine ⟨rfl, rfl, rfl, rfl, rfl, ?_, rfl⟩
  intro j
  by_cases hj : j = st.sampleCount + 1
  · subst hj
    simp only [submitEncryptedSample]
    rw [mapWrite_eq, mapWrite_eq]
  · simp only [submitEncryptedSample]
    rw [mapWrite_ne _ _ _ _ hj, mapWrite_ne _ _ _ _ hj]

/-! ### C10: ledger entries persist; metric callbacks replay -/

/-- C10: no entry of the request ledger `requestToSampleId` is ever removed
or invalidated: a successful `handleMetricDecryption` returns the state
unchanged, so an immediate replay of the same token with a valid proof
succeeds again with the same `MetricDecrypted` event; `handleDecryption`,
`submitEncryptedSample`, `storeEncryptedMetric` and
`resetTransformationReveal` leave every ledger entry intact; and the two
request operations touch no entry other than the freshly issued token. -/
theorem claim10_ledger_persistent_metric_replay :
    (∀ (st : ContractState) (t v : Nat) (authOk : Bool) (st' : ContractState)
        (ev : Event),
        handleMetricDecryption st t v authOk = .ok (st', ev) →
        st' = st ∧ handleMetricDecryption st' t v authOk = .ok (st', ev)) ∧
    (∀ (st : ContractState) (reqId : Nat) (cle : List String) (authOk : Bool)
        (st' : ContractState) (ev : Event) (t : Nat),
        handleDecryption st reqId cle authOk = .ok (st', ev) →
        st'.requestToSampleId t = st.requestToSampleId t) ∧
    (∀ (st : ContractState) (sender i f c ts t : Nat),
        (submitEncryptedSample st sender i f c ts).1.requestToSampleId t =
          st.requestToSampleId t) ∧
    (∀ (st : ContractState) (key : String) (v t : Nat),
        (storeEncryptedMetric st key v).requestToSampleId t =
          st.requestToSampleId t) ∧
    (∀ (st : ContractState) (sampleId t : Nat),
        (resetTransformationReveal st sampleId).requestToSampleId t =
          st.requestToSampleId t) ∧
    (∀ (sender : Nat) (st : ContractState) (sampleId tok : Nat)
        (st' : ContractState) (ev : Event) (t : Nat),
        requestTransformation sender st sampleId tok = .ok (st', ev) → t ≠ tok →
        st'.requestToSampleId t = st.requestToSampleId t) ∧
    (∀ (keccak : String → Nat) (st : ContractState) (key : String) (tok : Nat)
        (st' : ContractState) (t : Nat),
        requestMetricDecryption keccak st key tok = .ok st' → t ≠ tok →
        st'.requestToSampleId t = st.requestToSampleId t) := by
  refine ⟨?_, ?_, ?_, ?_, ?_, ?_, ?_⟩
  · intro st t v authOk st' ev h
    obtain ⟨-, -, hst', -⟩ := handleMetricDecryption_ok_inv h
    subst hst'
    exact ⟨rfl, h⟩
  · intro st reqId cle authOk st' ev t h
    obtain ⟨-, -, -, hst', -⟩ := handleDecryption_ok_inv h
    subst hst'
    rfl
  · intro st sender i f c ts t
    rfl
  · intro st key v t
    exact congrFun (storeEncryptedMetric_frame st key v).2.2.2 t
  · intro st sampleId t
    rfl
  · intro sender st sampleId tok st' ev t h hne
    obtain ⟨-, -, hst', -⟩ := requestTransformation_ok_inv h
    subst hst'
    exact mapWrite_ne _ _ _ _ hne
  · intro keccak st key tok st' t h hne
    obtain ⟨-, hst'⟩ := requestMetricDecryption_ok_inv h
    subst hst'
    exact mapWrite_ne _ _ _ _ hne

theorem claim10_witness :
    handleMetricDecryption ledgerFixture 9 12 true =
      .ok (ledgerFixture, .MetricDecrypted 77 12) :=
  (claim10_ledger_persistent_metric_replay.1 ledgerFixture 9 12 true ledgerFixture
      (.MetricDecrypted 77 12) rfl).2

end HapticArtFHE
